import Mathlib

/-!
Shallow embedding of the sip-cocktails demo server and widget logic.

The embedded code comes from:
* `src/server/src/cocktails.ts` — recipe catalog, `normalize`, `listCocktails`,
  `getCocktail`;
* `src/server/src/server.ts` — the `cocktail` widget handler and the
  `list-cocktails` tool handler;
* `src/web/src/widgets/cocktail.tsx` — `formatNumber` and `formatMeasurement`.

JavaScript numbers are embedded as exact fractions (`JsNumber`): a numerator,
a positive denominator, no implicit normalization.  All quantities appearing
in the repository (catalog measurements and the serving multipliers
0.5, 1, 2, 3) are small dyadic rationals on which double arithmetic is exact,
so fraction semantics coincides with the number semantics of the source there.
-/

namespace Sip

/-- Embedding of a JavaScript number as an exact fraction with positive
denominator.  Equality of values is `num * den = num * den` cross
multiplication, not structural equality. -/
structure JsNumber where
  num : Int
  den : Nat
  den_pos : 0 < den

instance : Inhabited JsNumber := ⟨⟨0, 1, Nat.one_pos⟩⟩

/-- Embeds an integer literal of the source. -/
def JsNumber.ofInt (n : Int) : JsNumber := ⟨n, 1, Nat.one_pos⟩

/-- Multiplication of numbers (`baseValue * servings` in the widget). -/
def JsNumber.mul (a b : JsNumber) : JsNumber :=
  ⟨a.num * b.num, a.den * b.den, Nat.mul_pos a.den_pos b.den_pos⟩

/-- Pads a digit string with leading zeros up to width `d`; used to render the
fractional digits produced by `toFixed`. -/
def padStartZeros (s : String) (d : Nat) : String :=
  String.mk (List.replicate (d - s.data.length) '0' ++ s.data)

/-- Decimal rendering of the nonnegative magnitude `num / den` (`den > 0`)
rounded to `d` fractional digits, ties away from zero, as specified for
`Number.prototype.toFixed`: the integer chosen is the one closest to
`(num / den) * 10 ^ d`, the larger one under a tie, which for a nonnegative
magnitude is `floor ((num / den) * 10 ^ d + 1 / 2)`. -/
def toFixedMag (num den d : Nat) : String :=
  let n := (num * 10 ^ d * 2 + den) / (2 * den)
  let p := 10 ^ d
  if d = 0 then toString (n / p)
  else toString (n / p) ++ "." ++ padStartZeros (toString (n % p)) d

/-- Embedding of `value.toFixed(d)`: ECMAScript prints a minus sign and then
the rendering of the magnitude. -/
def JsNumber.toFixed (q : JsNumber) (d : Nat) : String :=
  if q.num < 0 then "-" ++ toFixedMag (-q.num).toNat q.den d
  else toFixedMag q.num.toNat q.den d

/-- Embedding of `fixed.replace(/\.?0+$/, "")` from `formatNumber`: the
leftmost match of that anchored pattern is the maximal run of trailing zeros
(at least one) together with a dot immediately preceding the run when there
is one. -/
def stripTrailingZeros (s : String) : String :=
  let r := s.data.reverse
  if (r.takeWhile (fun c => c == '0')).isEmpty then s
  else
    match r.dropWhile (fun c => c == '0') with
    | '.' :: rest => String.mk rest.reverse
    | other => String.mk other.reverse

/-- Embedding of `formatNumber` (src/web/src/widgets/cocktail.tsx, lines
313-320).  `Number.isInteger value` holds exactly when the denominator
divides the numerator; the integer is then printed directly.  Otherwise the
value is rendered with 2 fractional digits when `value < 1` (numerator below
denominator) and 1 fractional digit otherwise, and trailing zeros plus a
trailing dot are stripped. -/
def formatNumber (value : JsNumber) : String :=
  if value.num % (value.den : Int) = 0 then
    toString (value.num.fdiv (value.den : Int))
  else
    let fixed := if value.num < (value.den : Int) then value.toFixed 2 else value.toFixed 1
    stripTrailingZeros fixed

/-- The measurement units of the catalog (`MeasurementUnit` in
src/server/src/cocktails.ts, line 1). -/
inductive MeasurementUnit where
  | ml
  | oz
  | part
deriving DecidableEq

structure IngredientAsset where
  id : String
  name : String
  subName : Option String
  imagePath : String

/-- `CocktailIngredient` (src/server/src/cocktails.ts, lines 12-18).  An
absent `displayOverrides` record and an absent key in a present record both
embed to `none`. -/
structure CocktailIngredient where
  ingredient : IngredientAsset
  measurements : MeasurementUnit → JsNumber
  displayOverrides : MeasurementUnit → Option String
  note : Option String
  optional : Option Bool

structure CocktailSummary where
  id : String
  name : String
  tagline : String
  subName : Option String
  imagePath : String

structure Nutrition where
  abv : Int
  sugar : Int
  volume : Int
  calories : Int

instance : Inhabited Nutrition := ⟨⟨0, 0, 0, 0⟩⟩

/-- `Cocktail` (src/server/src/cocktails.ts, lines 28-42), with the summary
fields inlined as in the source type. -/
structure Cocktail where
  id : String
  name : String
  tagline : String
  subName : Option String
  imagePath : String
  description : String
  instructions : String
  hashtags : List String
  ingredients : List CocktailIngredient
  nutrition : Nutrition
  garnish : Option String
  playlistUrl : Option String
  author : Option String

instance : Inhabited Cocktail :=
  ⟨⟨"", "", "", none, "", "", "", [], [], default, none, none, none⟩⟩

def silver_tequila : IngredientAsset :=
  ⟨"silver_tequila", "Silver Tequila", some "Blanco",
    "https://www.mcpjam.com/silver_tequila.png"⟩

def triple_sec : IngredientAsset :=
  ⟨"triple_sec", "Triple Sec", some "Cointreau",
    "https://www.mcpjam.com/triple_sec.png"⟩

def lime_juice : IngredientAsset :=
  ⟨"lime_juice", "Fresh Lime Juice", some "Yalica\x27s favorite",
    "https://www.mcpjam.com/lime_juice.png"⟩

def bourbon_whiskey : IngredientAsset :=
  ⟨"bourbon_whiskey", "Bourbon Whiskey", some "Kentucky straight",
    "https://www.mcpjam.com/bourbon_whiskey.png"⟩

def aromatic_bitters : IngredientAsset :=
  ⟨"aromatic_bitters", "Aromatic Bitters", some "Angostura",
    "https://www.mcpjam.com/aromatic_bitters.png"⟩

def simple_syrup : IngredientAsset :=
  ⟨"simple_syrup", "Simple Syrup", some "1:1 cane sugar",
    "https://www.mcpjam.com/simple_syrup.png"⟩

def maraschino_cherries : IngredientAsset :=
  ⟨"maraschino_cherries", "Maraschino Cherry", some "Luxardo",
    "https://www.mcpjam.com/maraschino_cherries.png"⟩

/-- The `margarita` catalog entry (src/server/src/cocktails.ts, lines
90-136). -/
def margarita : Cocktail :=
  ⟨"margarita", "Margarita", "Classic Cocktail", some "Citrus + agave",
    "https://www.mcpjam.com/margarita.png",
    "The Margarita is a beloved classic cocktail that perfectly blends the bold flavor of tequila with the tartness of lime juice and the sweetness of triple sec. Served in a glass with a salted rim, this refreshing drink is both tangy and invigorating, offering a balanced mix of flavors that make it one of the most popular cocktails worldwide. It\x27s the perfect choice for a summer gathering, a night out, or whenever you crave a taste of Mexico.",
    "Rim a glass with salt by rubbing a lime wedge around the rim and dipping it into salt. In a cocktail shaker, combine tequila, triple sec, and freshly squeezed lime juice with ice. Shake well and strain into the prepared glass over ice. Garnish with a lime wheel.",
    ["classic", "tequila", "lime"],
    [⟨silver_tequila,
      fun u => match u with
        | .ml => JsNumber.ofInt 60
        | .oz => JsNumber.ofInt 2
        | .part => JsNumber.ofInt 2,
      fun _ => none,
      some "Reposado also works if you want a rounder finish.", none⟩,
     ⟨triple_sec,
      fun u => match u with
        | .ml => JsNumber.ofInt 30
        | .oz => JsNumber.ofInt 1
        | .part => JsNumber.ofInt 1,
      fun _ => none, none, none⟩,
     ⟨lime_juice,
      fun u => match u with
        | .ml => JsNumber.ofInt 30
        | .oz => JsNumber.ofInt 1
        | .part => JsNumber.ofInt 1,
      fun _ => none, none, none⟩],
    ⟨15, 10, 120, 200⟩,
    some "Salt rim + lime wheel",
    some "https://open.spotify.com/playlist/5U6pRg2pyDJGsGkyGumy7i",
    none⟩

/-- The `old_fashioned` catalog entry (src/server/src/cocktails.ts, lines
137-200).  The decimal literals 7.5 and 0.25 embed as 75/10 and 25/100. -/
def old_fashioned : Cocktail :=
  ⟨"old_fashioned", "Old Fashioned", "Classic Whiskey Cocktail",
    some "Spirit-forward & silky",
    "https://www.mcpjam.com/old_fashioned.png",
    "The Old Fashioned is one of the oldest and most iconic whiskey cocktails, known for its simplicity and bold flavor. Made with whiskey, a sugar cube, Angostura bitters, and garnished with an orange twist, this classic drink offers a perfect balance of sweetness, bitterness, and the warm, rich character of the whiskey. It’s a timeless choice for those who appreciate the art of a well-crafted cocktail.",
    "Place a sugar cube in an Old Fashioned glass and add a few dashes of Angostura bitters. Muddle until the sugar dissolves. Add a large ice cube, pour in the whiskey, and stir until well-chilled. Garnish with an orange twist and a maraschino cherry if desired.",
    ["classic", "whiskey", "bitters"],
    [⟨bourbon_whiskey,
      fun u => match u with
        | .ml => JsNumber.ofInt 60
        | .oz => JsNumber.ofInt 2
        | .part => JsNumber.ofInt 2,
      fun _ => none, none, none⟩,
     ⟨aromatic_bitters,
      fun u => match u with
        | .ml => ⟨75, 10, by decide⟩
        | .oz => ⟨25, 100, by decide⟩
        | .part => ⟨25, 100, by decide⟩,
      fun u => match u with
        | .ml => some "2 dashes"
        | .oz => some "2 dashes"
        | .part => none,
      none, none⟩,
     ⟨simple_syrup,
      fun u => match u with
        | .ml => ⟨75, 10, by decide⟩
        | .oz => ⟨25, 100, by decide⟩
        | .part => ⟨25, 100, by decide⟩,
      fun _ => none, none, none⟩,
     ⟨maraschino_cherries,
      fun u => match u with
        | .ml => JsNumber.ofInt 0
        | .oz => JsNumber.ofInt 0
        | .part => JsNumber.ofInt 1,
      fun u => match u with
        | .ml => some "1 cherry"
        | .oz => some "1 cherry"
        | .part => none,
      some "Use as a garnish if you like a touch of sweetness.", some true⟩],
    ⟨32, 5, 90, 150⟩,
    some "Large orange twist",
    some "https://open.spotify.com/playlist/1DaQ7EeUAIXGgWHXQl5dUV",
    none⟩

/-- The catalog (src/server/src/cocktails.ts, lines 89-201). -/
def cocktails : List Cocktail := [margarita, old_fashioned]

/-- The whitespace class of the regular expression escape `\s` (also the set
trimmed by `String.prototype.trim`). -/
def isJsWhitespace (c : Char) : Bool :=
  c == ' ' || c == '\t' || c == '\n' || c == '\x0b' || c == '\x0c' || c == '\r' ||
  c == '\u00a0' || c == '\u1680' ||
  (decide (0x2000 ≤ c.toNat) && decide (c.toNat ≤ 0x200a)) ||
  c == '\u2028' || c == '\u2029' || c == '\u202f' || c == '\u205f' ||
  c == '\u3000' || c == '\ufeff'

/-- The character class `[\s-]` of the `normalize` regular expression. -/
def isSpaceOrHyphen (c : Char) : Bool :=
  isJsWhitespace c || c == '-'

/-- Embedding of `value.trim()`: leading and trailing whitespace removed. -/
def trimChars (l : List Char) : List Char :=
  ((l.dropWhile isJsWhitespace).reverse.dropWhile isJsWhitespace).reverse

/-- Embedding of `replace(/[\s-]+/g, "_")`: each maximal nonempty run of
whitespace or hyphen characters becomes a single underscore.  The boolean
records whether the previous character belonged to the current run. -/
def collapseRuns : Bool → List Char → List Char
  | _, [] => []
  | inRun, c :: rest =>
    if isSpaceOrHyphen c then
      if inRun then collapseRuns true rest
      else '_' :: collapseRuns true rest
    else c :: collapseRuns false rest

/-- Embedding of `normalize` (src/server/src/cocktails.ts, line 203):
`value.trim().toLowerCase().replace(/[\s-]+/g, "_")`. -/
def normalize (value : String) : String :=
  String.mk (collapseRuns false ((trimChars value.data).map Char.toLower))

/-- Embedding of `listCocktails` (src/server/src/cocktails.ts, lines
205-212). -/
def listCocktails : List CocktailSummary :=
  cocktails.map (fun c => ⟨c.id, c.name, c.tagline, c.subName, c.imagePath⟩)

/-- Embedding of `getCocktail` (src/server/src/cocktails.ts, lines 214-230),
with the module-level `cocktails` constant made an explicit parameter.  The
thrown `Error` becomes the `Except.error` branch carrying the message
string.  `!name` is true for an absent argument and for the empty string. -/
def getCocktailIn (catalog : List Cocktail) (name : Option String) : Except String Cocktail :=
  match name with
  | none => .ok (catalog.get! 0)
  | some n =>
    if n = "" then .ok (catalog.get! 0)
    else
      let normalized := normalize n
      match (catalog.find? (fun entry => normalize entry.id == normalized)).orElse
          (fun _ => catalog.find? (fun entry => normalize entry.name == normalized)) with
      | some cocktail => .ok cocktail
      | none => .error ("Cocktail " ++ n ++ " is not in the curated menu yet.")

/-- `getCocktail` applied to the catalog of the module. -/
def getCocktail (name : Option String) : Except String Cocktail :=
  getCocktailIn cocktails name

/-- Embedding of `formatMeasurement` after the override check
(src/web/src/widgets/cocktail.tsx, lines 328-339): zero base renders as
`"Dash"`, the `part` unit pluralizes on the scaled value, `oz` and `ml`
append their abbreviation. -/
def formatMeasurementFallback (ingredient : CocktailIngredient) (unit : MeasurementUnit)
    (servings : JsNumber) : String :=
  let baseValue := ingredient.measurements unit
  if baseValue.num = 0 then "Dash"
  else
    let scaled := baseValue.mul servings
    if unit = MeasurementUnit.part then
      formatNumber scaled ++ " part" ++ (if scaled.num ≠ (scaled.den : Int) then "s" else "")
    else
      let suffix := if unit = MeasurementUnit.oz then "oz" else "ml"
      formatNumber scaled ++ " " ++ suffix

/-- Embedding of `formatMeasurement` (src/web/src/widgets/cocktail.tsx, lines
322-340).  `if (override)` is a truthiness test, so an empty override string
falls through to the computed path. -/
def formatMeasurement (ingredient : CocktailIngredient) (unit : MeasurementUnit)
    (servings : JsNumber) : String :=
  match ingredient.displayOverrides unit with
  | some override =>
    if override = "" then formatMeasurementFallback ingredient unit servings else override
  | none => formatMeasurementFallback ingredient unit servings

/-- One text block of a tool response. -/
structure TextContent where
  text : String

/-- The structured payload of the `cocktail` widget response. -/
structure CocktailStructuredContent where
  cocktail : Cocktail
  availableCocktails : List CocktailSummary

/-- The response envelope produced by the handlers in
src/server/src/server.ts. -/
structure CallToolResult where
  metaId : Option String
  structuredContent : Option CocktailStructuredContent
  content : List TextContent
  isError : Bool

/-- Embedding of the `cocktail` widget handler (src/server/src/server.ts,
lines 29-58): on success the recipe, the summary list and two text lines; on
a lookup failure only the error line, marked as an error. -/
def cocktailWidgetHandler (name : Option String) : CallToolResult :=
  match getCocktail name with
  | .ok cocktail =>
    ⟨some cocktail.id,
      some ⟨cocktail, listCocktails⟩,
      [⟨cocktail.name ++ ": " ++ cocktail.description⟩,
       ⟨"Widget rendered with the full recipe. Avoid repeating measurements in plain text."⟩],
      false⟩
  | .error msg => ⟨none, none, [⟨"Error: " ++ msg⟩], true⟩

/-- Embedding of the `list-cocktails` tool handler (src/server/src/server.ts,
lines 61-79). -/
def listCocktailsHandler : CallToolResult :=
  ⟨none, none,
    [⟨"Currently curated cocktails:\n" ++
      String.intercalate "\n"
        (listCocktails.map (fun cocktail => "• " ++ cocktail.name ++ " — " ++ cocktail.tagline))⟩],
    false⟩

/-- An ingredient asset for concrete format checks. -/
def plainAsset : IngredientAsset := ⟨"test", "Test", none, ""⟩

/-- Ingredient with every base measurement 2 and no overrides. -/
def ozTwoIngredient : CocktailIngredient :=
  ⟨plainAsset, fun _ => JsNumber.ofInt 2, fun _ => none, none, none⟩

/-- Ingredient with every base measurement 1 and no overrides. -/
def partOneIngredient : CocktailIngredient :=
  ⟨plainAsset, fun _ => JsNumber.ofInt 1, fun _ => none, none, none⟩

/-- Ingredient with every base measurement 0 and no overrides. -/
def zeroIngredient : CocktailIngredient :=
  ⟨plainAsset, fun _ => JsNumber.ofInt 0, fun _ => none, none, none⟩

/-- Ingredient with base measurement 7.5 and an empty display override on
`ml`. -/
def emptyOverrideIngredient : CocktailIngredient :=
  ⟨plainAsset, fun _ => ⟨75, 10, by decide⟩,
    fun u => match u with
      | .ml => some ""
      | .oz => none
      | .part => none,
    none, none⟩

/-- The serving multiplier 0.5 of the widget serving options. -/
def servingHalf : JsNumber := ⟨5, 10, by decide⟩

def servingOne : JsNumber := JsNumber.ofInt 1

def servingTwo : JsNumber := JsNumber.ofInt 2

def servingThree : JsNumber := JsNumber.ofInt 3

theorem char_toNat_ofNat (n : Nat) (h : n.isValidChar) : (Char.ofNat n).toNat = n := by
  simp [Char.ofNat, h, Char.ofNatAux, Char.toNat]
  rfl

theorem toLower_toLower (c : Char) : c.toLower.toLower = c.toLower := by
  by_cases h : c.toNat ≥ 65 ∧ c.toNat ≤ 90
  · have h1 : c.toLower = Char.ofNat (c.toNat + 32) := by
      unfold Char.toLower
      rw [if_pos h]
    rw [h1]
    have hv : (c.toNat + 32).isValidChar := Or.inl (by omega)
    have hk := char_toNat_ofNat _ hv
    unfold Char.toLower
    rw [hk]
    rw [if_neg (by omega)]
  · have h1 : c.toLower = c := by
      unfold Char.toLower
      rw [if_neg h]
    rw [h1, h1]

theorem dropWhile_eq_self_of {α : Type} (p : α → Bool) (l : List α)
    (h : ∀ c ∈ l, p c = false) : l.dropWhile p = l := by
  cases l with
  | nil => rfl
  | cons a as => simp [List.dropWhile_cons, h a (List.mem_cons_self a as)]

theorem trimChars_eq_self (l : List Char) (h : ∀ c ∈ l, isJsWhitespace c = false) :
    trimChars l = l := by
  unfold trimChars
  rw [dropWhile_eq_self_of _ _ h]
  rw [dropWhile_eq_self_of _ _ (fun c hc => h c (List.mem_reverse.mp hc))]
  exact List.reverse_reverse l

theorem mem_collapseRuns (l : List Char) :
    ∀ (inRun : Bool), ∀ c ∈ collapseRuns inRun l,
      c = '_' ∨ (c ∈ l ∧ isSpaceOrHyphen c = false) := by
  induction l with
  | nil =>
    intro inRun c hc
    simp [collapseRuns] at hc
  | cons a as ih =>
    intro inRun c hc
    rw [collapseRuns] at hc
    cases ha : isSpaceOrHyphen a with
    | true =>
      rw [if_pos ha] at hc
      cases inRun with
      | true =>
        rcases ih true c hc with h | ⟨hm, hs⟩
        · exact Or.inl h
        · exact Or.inr ⟨List.mem_cons_of_mem a hm, hs⟩
      | false =>
        simp only [Bool.false_eq_true, if_false, List.mem_cons] at hc
        rcases hc with h | hc
        · exact Or.inl h
        · rcases ih true c hc with h | ⟨hm, hs⟩
          · exact Or.inl h
          · exact Or.inr ⟨List.mem_cons_of_mem a hm, hs⟩
    | false =>
      rw [if_neg (by rw [ha]; decide)] at hc
      rcases List.mem_cons.mp hc with h | hc
      · rw [h]
        exact Or.inr ⟨List.mem_cons_self a as, ha⟩
      · rcases ih false c hc with h | ⟨hm, hs⟩
        · exact Or.inl h
        · exact Or.inr ⟨List.mem_cons_of_mem a hm, hs⟩

theorem collapseRuns_no_class (l : List Char) (inRun : Bool) :
    ∀ c ∈ collapseRuns inRun l, isSpaceOrHyphen c = false := by
  intro c hc
  rcases mem_collapseRuns l inRun c hc with h | ⟨_, hs⟩
  · subst h
    decide
  · exact hs

theorem collapseRuns_eq_self (l : List Char) :
    (∀ c ∈ l, isSpaceOrHyphen c = false) → ∀ inRun : Bool, collapseRuns inRun l = l := by
  induction l with
  | nil =>
    intro _ inRun
    rfl
  | cons a as ih =>
    intro h inRun
    have ha := h a (List.mem_cons_self a as)
    rw [collapseRuns, if_neg (by rw [ha]; decide),
      ih (fun c hc => h c (List.mem_cons_of_mem a hc)) false]

theorem isJsWhitespace_eq_false_of (c : Char) (h : isSpaceOrHyphen c = false) :
    isJsWhitespace c = false := by
  cases hj : isJsWhitespace c with
  | false => rfl
  | true =>
    rw [isSpaceOrHyphen, hj, Bool.true_or] at h
    cases h

theorem map_eq_self_of {α : Type} (f : α → α) (l : List α)
    (h : ∀ a ∈ l, f a = a) : l.map f = l := by
  induction l with
  | nil => rfl
  | cons a as ih =>
    rw [List.map_cons, h a (List.mem_cons_self a as),
      ih (fun b hb => h b (List.mem_cons_of_mem a hb))]

theorem find_first_eq {α : Type} (p : α → Bool) :
    ∀ (l : List α) (i : Nat) (hi : i < l.length),
      p (l.get ⟨i, hi⟩) = true →
      (∀ (j : Nat) (hj : j < i), p (l.get ⟨j, Nat.lt_trans hj hi⟩) = false) →
      l.find? p = some (l.get ⟨i, hi⟩) := by
  intro l
  induction l with
  | nil =>
    intro i hi
    exact absurd hi (Nat.not_lt_zero i)
  | cons a as ih =>
    intro i hi hp hmin
    cases i with
    | zero =>
      have hp2 : p a = true := hp
      rw [List.find?_cons_of_pos _ hp2]
      rfl
    | succ k =>
      have h0 : p a = false := hmin 0 (Nat.succ_pos k)
      rw [List.find?_cons_of_neg _ (by rw [h0]; decide)]
      exact ih k (Nat.lt_of_succ_lt_succ hi) hp
        (fun j hj => hmin (j + 1) (Nat.succ_lt_succ hj))

/-- C9: the name normalization function (trim, lower-case, collapse each run
of whitespace and hyphens into a single underscore) is idempotent: for every
string `x`, `normalize (normalize x) = normalize x`. -/
theorem claim9_normalize_idempotent (x : String) :
    normalize (normalize x) = normalize x := by
  unfold normalize
  have hdata : (String.mk (collapseRuns false ((trimChars x.data).map Char.toLower))).data =
      collapseRuns false ((trimChars x.data).map Char.toLower) := rfl
  rw [hdata]
  have hnoclass := collapseRuns_no_class ((trimChars x.data).map Char.toLower) false
  rw [trimChars_eq_self _ (fun c hc => isJsWhitespace_eq_false_of c (hnoclass c hc))]
  have hmap : (collapseRuns false ((trimChars x.data).map Char.toLower)).map Char.toLower =
      collapseRuns false ((trimChars x.data).map Char.toLower) := by
    apply map_eq_self_of
    intro a ha
    rcases mem_collapseRuns _ false a ha with h | ⟨hm, _⟩
    · subst h
      decide
    · rcases List.mem_map.mp hm with ⟨d, _, hd⟩
      rw [← hd]
      exact toLower_toLower d
  rw [hmap]
  exact congrArg String.mk (collapseRuns_eq_self _ hnoclass false)

/-- C1: for every recipe in the catalog, `getCocktail` on the id of the recipe and
on its name return exactly that recipe; the lookup scans the whole catalog
for a normalized-id match and only if none exists scans it for a
normalized-name match, taking the first match in catalog order. -/
theorem claim1_lookup_id_then_name :
    (∀ c ∈ cocktails, getCocktail (some c.id) = .ok c ∧ getCocktail (some c.name) = .ok c) ∧
    (∀ (catalog : List Cocktail) (q : String), q ≠ "" →
      (∀ (i : Nat) (hi : i < catalog.length),
        normalize (catalog.get ⟨i, hi⟩).id = normalize q →
        (∀ (j : Nat) (hj : j < i), normalize (catalog.get ⟨j, Nat.lt_trans hj hi⟩).id ≠ normalize q) →
        getCocktailIn catalog (some q) = .ok (catalog.get ⟨i, hi⟩)) ∧
      ((∀ c ∈ catalog, normalize c.id ≠ normalize q) →
        ∀ (i : Nat) (hi : i < catalog.length),
          normalize (catalog.get ⟨i, hi⟩).name = normalize q →
          (∀ (j : Nat) (hj : j < i), normalize (catalog.get ⟨j, Nat.lt_trans hj hi⟩).name ≠ normalize q) →
          getCocktailIn catalog (some q) = .ok (catalog.get ⟨i, hi⟩))) := by
  constructor
  · intro c hc
    simp only [cocktails, List.mem_cons, List.mem_singleton, List.not_mem_nil, or_false] at hc
    rcases hc with rfl | rfl
    · exact ⟨rfl, rfl⟩
    · exact ⟨rfl, rfl⟩
  · intro catalog q hq
    constructor
    · intro i hi hid hmin
      simp only [getCocktailIn]
      rw [if_neg hq]
      have hfind := find_first_eq (fun entry => normalize entry.id == normalize q)
        catalog i hi
        (by
          show (normalize (catalog.get ⟨i, hi⟩).id == normalize q) = true
          rw [hid]
          exact beq_self_eq_true _)
        (fun j hj => by
          show (normalize (catalog.get ⟨j, Nat.lt_trans hj hi⟩).id == normalize q) = false
          exact beq_eq_false_iff_ne.mpr (hmin j hj))
      rw [hfind]
      rfl
    · intro hnone i hi hname hmin
      simp only [getCocktailIn]
      rw [if_neg hq]
      have hid_none : catalog.find? (fun entry => normalize entry.id == normalize q) = none :=
        List.find?_eq_none.mpr (fun c hc h => hnone c hc (eq_of_beq h))
      have hfind := find_first_eq (fun entry => normalize entry.name == normalize q)
        catalog i hi
        (by
          show (normalize (catalog.get ⟨i, hi⟩).name == normalize q) = true
          rw [hname]
          exact beq_self_eq_true _)
        (fun j hj => by
          show (normalize (catalog.get ⟨j, Nat.lt_trans hj hi⟩).name == normalize q) = false
          exact beq_eq_false_iff_ne.mpr (hmin j hj))
      rw [hid_none]
      simp only [Option.orElse]
      rw [hfind]

theorem claim1_witness :
    getCocktail (some "margarita") = .ok margarita ∧
    getCocktail (some "Old Fashioned") = .ok old_fashioned := by
  constructor
  · exact (claim1_lookup_id_then_name.1 margarita (by simp [cocktails])).1
  · have hlen : 1 < cocktails.length := by decide
    have hid1 : normalize (cocktails.get ⟨1, hlen⟩).id = normalize "Old Fashioned" := by
      show normalize old_fashioned.id = normalize "Old Fashioned"
      decide
    have h := (claim1_lookup_id_then_name.2 cocktails "Old Fashioned" (by decide)).1 1
      hlen hid1
      (fun j hj => by
        have hj0 : j = 0 := Nat.lt_one_iff.mp hj
        subst hj0
        show normalize margarita.id ≠ normalize "Old Fashioned"
        decide)
    exact h

/-- C4: a query matching no catalog recipe by normalized id or name makes the
lookup fail with the original, non-normalized query string in the message,
and the widget handler converts the failure into an error response with a
human-readable message embedding the query and no structured payload. -/
theorem claim4_not_found (q : String) (hq : q ≠ "")
    (hmiss : ∀ c ∈ cocktails, normalize c.id ≠ normalize q ∧ normalize c.name ≠ normalize q) :
    getCocktail (some q) = .error ("Cocktail " ++ q ++ " is not in the curated menu yet.") ∧
    (cocktailWidgetHandler (some q)).isError = true ∧
    (cocktailWidgetHandler (some q)).structuredContent = none ∧
    (cocktailWidgetHandler (some q)).content =
      [⟨"Error: " ++ ("Cocktail " ++ q ++ " is not in the curated menu yet.")⟩] := by
  have herr : getCocktail (some q) =
      .error ("Cocktail " ++ q ++ " is not in the curated menu yet.") := by
    simp only [getCocktail, getCocktailIn]
    rw [if_neg hq]
    have h1 : cocktails.find? (fun entry => normalize entry.id == normalize q) = none :=
      List.find?_eq_none.mpr (fun c hc h => (hmiss c hc).1 (eq_of_beq h))
    have h2 : cocktails.find? (fun entry => normalize entry.name == normalize q) = none :=
      List.find?_eq_none.mpr (fun c hc h => (hmiss c hc).2 (eq_of_beq h))
    rw [h1]
    simp only [Option.orElse]
    rw [h2]
  refine ⟨herr, ?_, ?_, ?_⟩ <;> · unfold cocktailWidgetHandler
                                  rw [herr]

theorem claim4_witness :
    ("not-a-real-drink" : String) ≠ "" ∧
    getCocktail (some "not-a-real-drink") =
      .error ("Cocktail " ++ "not-a-real-drink" ++ " is not in the curated menu yet.") ∧
    (cocktailWidgetHandler (some "not-a-real-drink")).isError = true := by
  have h := claim4_not_found "not-a-real-drink" (by decide) (by decide)
  exact ⟨by decide, h.1, h.2.1⟩

/-- C5: an absent or empty query returns the first recipe in
catalog-definition order, whatever the rest of the catalog contains. -/
theorem claim5_default_first :
    getCocktail none = .ok margarita ∧
    getCocktail (some "") = .ok margarita ∧
    cocktails.head? = some margarita ∧
    (∀ (c : Cocktail) (rest : List Cocktail),
      getCocktailIn (c :: rest) none = .ok c ∧
      getCocktailIn (c :: rest) (some "") = .ok c) :=
  ⟨rfl, rfl, rfl, fun _ _ => ⟨rfl, rfl⟩⟩

/-- C8: the list-cocktails tool always succeeds, carries no structured
payload, and its text output lists one line per catalog entry in catalog
order, each formatted as a bullet with name and tagline, joined by
newlines. -/
theorem claim8_list_cocktails :
    listCocktailsHandler.isError = false ∧
    listCocktailsHandler.structuredContent = none ∧
    listCocktailsHandler.content =
      [⟨"Currently curated cocktails:\n" ++
        String.intercalate "\n"
          (listCocktails.map (fun cocktail => "• " ++ cocktail.name ++ " — " ++ cocktail.tagline))⟩] ∧
    listCocktails.map (fun cocktail => "• " ++ cocktail.name ++ " — " ++ cocktail.tagline) =
      ["• Margarita — Classic Cocktail", "• Old Fashioned — Classic Whiskey Cocktail"] ∧
    listCocktails.length = cocktails.length :=
  ⟨rfl, rfl, rfl, by decide, rfl⟩

/-- C2 as stated is false on the code: an override that is present but equal
to the empty string is not returned verbatim, because the truthiness test
skips it; here the ingredient has `displayOverrides.ml = ""` yet the
formatter returns the computed quantity. -/
theorem claim2_counterexample :
    emptyOverrideIngredient.displayOverrides MeasurementUnit.ml = some "" ∧
    formatMeasurement emptyOverrideIngredient MeasurementUnit.ml servingOne ≠ "" ∧
    formatMeasurement emptyOverrideIngredient MeasurementUnit.ml servingOne = "7.5 ml" :=
  ⟨rfl, by decide, by decide⟩

/-- C2 (amended): for every ingredient, unit and serving multiplier, if the
ingredient has a NON-EMPTY display override defined for that unit,
`formatMeasurement` returns the override string verbatim, and the result is
independent of the serving multiplier. -/
theorem claim2_override_verbatim (ing : CocktailIngredient) (u : MeasurementUnit)
    (m : JsNumber) (s : String) (hov : ing.displayOverrides u = some s) (hs : s ≠ "") :
    formatMeasurement ing u m = s ∧
    (∀ m2 : JsNumber, formatMeasurement ing u m2 = formatMeasurement ing u m) := by
  have h : ∀ m2 : JsNumber, formatMeasurement ing u m2 = s := by
    intro m2
    unfold formatMeasurement
    rw [hov]
    exact if_neg hs
  exact ⟨h m, fun m2 => (h m2).trans (h m).symm⟩

theorem claim2_witness :
    (old_fashioned.ingredients.get ⟨1, by decide⟩).displayOverrides MeasurementUnit.ml =
      some "2 dashes" ∧
    formatMeasurement (old_fashioned.ingredients.get ⟨1, by decide⟩) MeasurementUnit.ml
      servingTwo = "2 dashes" :=
  ⟨rfl,
    (claim2_override_verbatim (old_fashioned.ingredients.get ⟨1, by decide⟩)
      MeasurementUnit.ml servingTwo "2 dashes" rfl (by decide)).1⟩

/-- C6: with no display override for the unit and a base measurement of zero
in that unit, `formatMeasurement` returns the literal string `"Dash"` for
every serving multiplier. -/
theorem claim6_zero_dash (ing : CocktailIngredient) (u : MeasurementUnit) (m : JsNumber)
    (hov : ing.displayOverrides u = none) (hz : (ing.measurements u).num = 0) :
    formatMeasurement ing u m = "Dash" := by
  unfold formatMeasurement
  rw [hov]
  unfold formatMeasurementFallback
  exact if_pos hz

theorem claim6_witness :
    zeroIngredient.displayOverrides MeasurementUnit.part = none ∧
    (zeroIngredient.measurements MeasurementUnit.part).num = 0 ∧
    formatMeasurement zeroIngredient MeasurementUnit.part servingTwo = "Dash" :=
  ⟨rfl, rfl, claim6_zero_dash zeroIngredient MeasurementUnit.part servingTwo rfl rfl⟩

/-- C3: with no override and a nonzero base, the formatter renders
`scaled = base * servingMultiplier` through `formatNumber`: a plain integer
string when the value is an integer, otherwise the value at 2 decimal places
when below 1 and 1 decimal place otherwise with trailing zeros and a
trailing decimal point stripped; for `measurements.oz = 2` with no override,
multipliers 1, 0.5 and 3 yield "2 oz", "1 oz" and "6 oz". -/
theorem claim3_scaled_rendering :
    (∀ (ing : CocktailIngredient) (m : JsNumber),
      ing.displayOverrides MeasurementUnit.oz = none →
      (ing.measurements MeasurementUnit.oz).num ≠ 0 →
      formatMeasurement ing MeasurementUnit.oz m =
        formatNumber ((ing.measurements MeasurementUnit.oz).mul m) ++ " " ++ "oz") ∧
    (∀ q : JsNumber, q.num % (q.den : Int) = 0 →
      formatNumber q = toString (q.num.fdiv (q.den : Int))) ∧
    (∀ q : JsNumber, ¬q.num % (q.den : Int) = 0 →
      formatNumber q =
        stripTrailingZeros (if q.num < (q.den : Int) then q.toFixed 2 else q.toFixed 1)) ∧
    formatMeasurement ozTwoIngredient MeasurementUnit.oz servingOne = "2 oz" ∧
    formatMeasurement ozTwoIngredient MeasurementUnit.oz servingHalf = "1 oz" ∧
    formatMeasurement ozTwoIngredient MeasurementUnit.oz servingThree = "6 oz" := by
  refine ⟨?_, ?_, ?_, by decide, by decide, by decide⟩
  · intro ing m hov hnz
    unfold formatMeasurement
    rw [hov]
    unfold formatMeasurementFallback
    rw [if_neg hnz]
    rfl
  · intro q h
    unfold formatNumber
    rw [if_pos h]
  · intro q h
    unfold formatNumber
    rw [if_neg h]

theorem claim3_witness :
    ozTwoIngredient.displayOverrides MeasurementUnit.oz = none ∧
    (ozTwoIngredient.measurements MeasurementUnit.oz).num ≠ 0 ∧
    formatMeasurement ozTwoIngredient MeasurementUnit.oz servingThree =
      formatNumber ((ozTwoIngredient.measurements MeasurementUnit.oz).mul servingThree) ++
        " " ++ "oz" ∧
    formatNumber ((ozTwoIngredient.measurements MeasurementUnit.oz).mul servingThree) ++
        " " ++ "oz" = "6 oz" :=
  ⟨rfl, by decide,
    claim3_scaled_rendering.1 ozTwoIngredient servingThree rfl (by decide), by decide⟩

/-- C7: for the `part` unit with no override and nonzero base the result is
suffixed " part" exactly when the scaled value equals 1 and " parts"
otherwise; `oz` and `ml` append their literal abbreviation with no
pluralization; `measurements.part = 1` yields "1 part" at multiplier 1 and
"2 parts" at multiplier 2. -/
theorem claim7_part_pluralization :
    (∀ (ing : CocktailIngredient) (m : JsNumber),
      ing.displayOverrides MeasurementUnit.part = none →
      (ing.measurements MeasurementUnit.part).num ≠ 0 →
      ((((ing.measurements MeasurementUnit.part).mul m).num =
          (((ing.measurements MeasurementUnit.part).mul m).den : Int) →
        formatMeasurement ing MeasurementUnit.part m =
          formatNumber ((ing.measurements MeasurementUnit.part).mul m) ++ " part") ∧
       (((ing.measurements MeasurementUnit.part).mul m).num ≠
          (((ing.measurements MeasurementUnit.part).mul m).den : Int) →
        formatMeasurement ing MeasurementUnit.part m =
          formatNumber ((ing.measurements MeasurementUnit.part).mul m) ++ " parts"))) ∧
    (∀ (ing : CocktailIngredient) (m : JsNumber),
      ing.displayOverrides MeasurementUnit.oz = none →
      (ing.measurements MeasurementUnit.oz).num ≠ 0 →
      formatMeasurement ing MeasurementUnit.oz m =
        formatNumber ((ing.measurements MeasurementUnit.oz).mul m) ++ " " ++ "oz") ∧
    (∀ (ing : CocktailIngredient) (m : JsNumber),
      ing.displayOverrides MeasurementUnit.ml = none →
      (ing.measurements MeasurementUnit.ml).num ≠ 0 →
      formatMeasurement ing MeasurementUnit.ml m =
        formatNumber ((ing.measurements MeasurementUnit.ml).mul m) ++ " " ++ "ml") ∧
    formatMeasurement partOneIngredient MeasurementUnit.part servingOne = "1 part" ∧
    formatMeasurement partOneIngredient MeasurementUnit.part servingTwo = "2 parts" := by
  refine ⟨?_, ?_, ?_, by decide, by decide⟩
  · intro ing m hov hnz
    have hbase : formatMeasurement ing MeasurementUnit.part m =
        formatNumber ((ing.measurements MeasurementUnit.part).mul m) ++ " part" ++
          (if ((ing.measurements MeasurementUnit.part).mul m).num ≠
              (((ing.measurements MeasurementUnit.part).mul m).den : Int) then "s" else "") := by
      unfold formatMeasurement
      rw [hov]
      unfold formatMeasurementFallback
      rw [if_neg hnz]
      rfl
    constructor
    · intro he
      rw [hbase, if_neg (by simp [he]), String.append_empty]
    · intro hne
      rw [hbase, if_pos hne, String.append_assoc]
      rfl
  · intro ing m hov hnz
    unfold formatMeasurement
    rw [hov]
    unfold formatMeasurementFallback
    rw [if_neg hnz]
    rfl
  · intro ing m hov hnz
    unfold formatMeasurement
    rw [hov]
    unfold formatMeasurementFallback
    rw [if_neg hnz]
    rfl

theorem claim7_witness :
    partOneIngredient.displayOverrides MeasurementUnit.part = none ∧
    (partOneIngredient.measurements MeasurementUnit.part).num ≠ 0 ∧
    formatMeasurement partOneIngredient MeasurementUnit.part servingTwo =
      formatNumber ((partOneIngredient.measurements MeasurementUnit.part).mul servingTwo) ++
        " parts" ∧
    formatNumber ((partOneIngredient.measurements MeasurementUnit.part).mul servingTwo) ++
        " parts" = "2 parts" :=
  ⟨rfl, by decide,
    ((claim7_part_pluralization.1 partOneIngredient servingTwo rfl (by decide)).2 (by decide)),
    by decide⟩

/-- C10: an override that is present but equal to the empty string is
skipped (the check is for truthiness, not presence): the result falls
through to the computed path, "Dash" when the base measurement is zero and
the scaled formatted quantity otherwise, for every serving multiplier. -/
theorem claim10_empty_override_skipped (ing : CocktailIngredient) (u : MeasurementUnit)
    (m : JsNumber) (hov : ing.displayOverrides u = some "") :
    formatMeasurement ing u m = formatMeasurementFallback ing u m ∧
    ((ing.measurements u).num = 0 → formatMeasurement ing u m = "Dash") ∧
    ((ing.measurements u).num ≠ 0 →
      formatMeasurement ing u m =
        (match u with
         | MeasurementUnit.part =>
           formatNumber ((ing.measurements u).mul m) ++ " part" ++
             (if ((ing.measurements u).mul m).num ≠ (((ing.measurements u).mul m).den : Int)
              then "s" else "")
         | MeasurementUnit.oz => formatNumber ((ing.measurements u).mul m) ++ " " ++ "oz"
         | MeasurementUnit.ml => formatNumber ((ing.measurements u).mul m) ++ " " ++ "ml")) := by
  have h0 : formatMeasurement ing u m = formatMeasurementFallback ing u m := by
    unfold formatMeasurement
    rw [hov]
    exact if_pos rfl
  refine ⟨h0, fun hz => ?_, fun hnz => ?_⟩
  · rw [h0]
    unfold formatMeasurementFallback
    exact if_pos hz
  · rw [h0]
    unfold formatMeasurementFallback
    rw [if_neg hnz]
    cases u with
    | ml => rfl
    | oz => rfl
    | part => rfl

theorem claim10_witness :
    emptyOverrideIngredient.displayOverrides MeasurementUnit.ml = some "" ∧
    formatMeasurement emptyOverrideIngredient MeasurementUnit.ml servingOne = "7.5 ml" := by
  have h := claim10_empty_override_skipped emptyOverrideIngredient MeasurementUnit.ml
    servingOne rfl
  exact ⟨rfl, (h.2.2 (by decide)).trans (by decide)⟩

end Sip
